import Mathlib

/-!
# Verification of the gradient-descent optimizer core

Shallow embedding of `GradientDescentOptimizer` (file `gradient-descent.js`
of the `gradient-descent-visualizer` package) together with the parts of
`math/functions.js` it uses (`mathUtils.vectorMagnitude`, `quadraticBowl`).

Modelling conventions:
* JavaScript numbers are idealized as real numbers `ℝ`; `Math.sqrt` is
  `Real.sqrt`, `Math.abs` is `|·|`, `Math.pow b n` with a natural exponent
  is `b ^ n`.
* The mutable class instance becomes an explicit state record
  `GradientDescentOptimizer`; each method is a function from the state (plus
  arguments) to the new state together with its JavaScript return value.
* `performance.now()` is modelled by an explicit clock argument `now : ℝ`
  passed to every method that reads the clock.  `null`-able timing fields
  become `Option ℝ`; the JavaScript truthiness test `this.endTime ?` is
  `numTruthy` (`null` and `0` are falsy).
* A JavaScript division that can produce `Infinity`/`NaN` (division by zero)
  is modelled by `jsDiv` returning a value of `JsNum`, whose `nonfinite`
  constructor stands for any of the non-finite IEEE values.
* The `while` loop of `runToConvergence` is compiled to the fuel-based
  `runToConvergenceLoop` with fuel `maxIterations + 1 - iteration`; the fuel
  is provably sufficient (`runToConvergenceLoop_post`): the loop always
  exits because its guard became false, never by fuel exhaustion.
* The source method `initialize` is called `init` here; apart from that,
  names follow the source.
-/

open Classical

noncomputable section

namespace GradientDescent

/-- A 2-D point `{x, y}`. -/
structure Vec2 where
  x : ℝ
  y : ℝ

/-- A gradient vector `{dx, dy}` as returned by `func.gradient`. -/
structure Grad where
  dx : ℝ
  dy : ℝ

instance : Inhabited Vec2 := ⟨⟨0, 0⟩⟩

instance : Inhabited Grad := ⟨⟨0, 0⟩⟩

/-- The part of an objective-function object the optimizer core uses:
`value(x, y)` and `gradient(x, y)`. -/
structure ObjectiveFunction where
  value : ℝ → ℝ → ℝ
  gradient : ℝ → ℝ → Grad

namespace mathUtils

/-- `mathUtils.vectorMagnitude` from `math/functions.js`:
`Math.sqrt(gradient.dx * gradient.dx + gradient.dy * gradient.dy)`. -/
def vectorMagnitude (gradient : Grad) : ℝ :=
  Real.sqrt (gradient.dx * gradient.dx + gradient.dy * gradient.dy)

end mathUtils

/-- The configuration record (after the constructor has merged the caller's
partial config over `defaultConfig`, every field is present). -/
structure Config where
  learningRate : ℝ
  maxIterations : ℕ
  tolerance : ℝ
  momentum : ℝ
  adaptiveLearningRate : Bool
  initialDecay : ℝ

/-- `defaultConfig` from `gradient-descent.js`. -/
def defaultConfig : Config :=
  { learningRate := 1 / 100
    maxIterations := 1000
    tolerance := 1 / 1000000
    momentum := 0
    adaptiveLearningRate := false
    initialDecay := 9 / 10 }

/-- The snapshot object returned by `getCurrentState()`. -/
structure StepState where
  position : Vec2
  functionValue : ℝ
  gradient : Grad
  gradientMagnitude : ℝ
  iteration : ℕ
  converged : Bool
  learningRate : ℝ

/-- A history record: a `StepState` spread together with a `timestamp`
(`{...state, timestamp: performance.now()}`). -/
structure HistoryEntry where
  position : Vec2
  functionValue : ℝ
  gradient : Grad
  gradientMagnitude : ℝ
  iteration : ℕ
  converged : Bool
  learningRate : ℝ
  timestamp : ℝ

instance : Inhabited HistoryEntry :=
  ⟨⟨default, 0, default, 0, 0, false, 0, 0⟩⟩

/-- The spread `{...state, timestamp}` used by `recordCurrentState`. -/
def HistoryEntry.ofState (s : StepState) (t : ℝ) : HistoryEntry :=
  { position := s.position
    functionValue := s.functionValue
    gradient := s.gradient
    gradientMagnitude := s.gradientMagnitude
    iteration := s.iteration
    converged := s.converged
    learningRate := s.learningRate
    timestamp := t }

/-- The mutable state of a `GradientDescentOptimizer` instance. -/
structure GradientDescentOptimizer where
  func : ObjectiveFunction
  config : Config
  currentPosition : Vec2
  velocity : Vec2
  iteration : ℕ
  converged : Bool
  history : List HistoryEntry
  isRunning : Bool
  startTime : Option ℝ
  endTime : Option ℝ

namespace GradientDescentOptimizer

/-- The constructor `new GradientDescentOptimizer(func, config)` (with the
already-merged configuration). -/
def create (f : ObjectiveFunction) (cfg : Config) : GradientDescentOptimizer :=
  { func := f
    config := cfg
    currentPosition := ⟨0, 0⟩
    velocity := ⟨0, 0⟩
    iteration := 0
    converged := false
    history := []
    isRunning := false
    startTime := none
    endTime := none }

/-- `getCurrentState()`: recomputes value and gradient at the current
position and returns a snapshot; reads but never writes the state. -/
def getCurrentState (o : GradientDescentOptimizer) : StepState :=
  let x := o.currentPosition.x
  let y := o.currentPosition.y
  let functionValue := o.func.value x y
  let gradient := o.func.gradient x y
  let gradientMagnitude := mathUtils.vectorMagnitude gradient
  { position := ⟨x, y⟩
    functionValue := functionValue
    gradient := gradient
    gradientMagnitude := gradientMagnitude
    iteration := o.iteration
    converged := o.converged
    learningRate := o.config.learningRate }

/-- `recordCurrentState()`: pushes `{...getCurrentState(), timestamp}`. -/
def recordCurrentState (o : GradientDescentOptimizer) (now : ℝ) :
    GradientDescentOptimizer :=
  { o with history := o.history ++ [HistoryEntry.ofState o.getCurrentState now] }

/-- `initialize(x, y)` from the source (renamed `init` here): sets the
position, zeroes velocity and iteration, clears the convergence flag, the
history and the running flag, and records the initial snapshot.  Note that
the source does NOT touch `startTime`/`endTime` here. -/
def init (o : GradientDescentOptimizer) (x y : ℝ) (now : ℝ) :
    GradientDescentOptimizer :=
  recordCurrentState
    { o with
      currentPosition := ⟨x, y⟩
      velocity := ⟨0, 0⟩
      iteration := 0
      converged := false
      history := []
      isRunning := false }
    now

/-- `step()`: one gradient-descent step; returns the new state together with
the snapshot the method returns. -/
def step (o : GradientDescentOptimizer) (now : ℝ) :
    GradientDescentOptimizer × StepState :=
  if o.converged = true ∨ o.config.maxIterations ≤ o.iteration then
    let o' := { o with isRunning := false }
    (o', o'.getCurrentState)
  else
    let gradient := o.func.gradient o.currentPosition.x o.currentPosition.y
    let gradientMagnitude := mathUtils.vectorMagnitude gradient
    if gradientMagnitude < o.config.tolerance then
      let o' := { o with converged := true, isRunning := false, endTime := some now }
      (o', o'.getCurrentState)
    else
      let currentLearningRate :=
        if o.config.adaptiveLearningRate = true ∧ 0 < o.iteration then
          o.config.learningRate * o.config.initialDecay ^ o.iteration
        else o.config.learningRate
      let o' :=
        if 0 < o.config.momentum then
          let vx := o.config.momentum * o.velocity.x - currentLearningRate * gradient.dx
          let vy := o.config.momentum * o.velocity.y - currentLearningRate * gradient.dy
          { o with
            velocity := ⟨vx, vy⟩
            currentPosition := ⟨o.currentPosition.x + vx, o.currentPosition.y + vy⟩ }
        else
          { o with
            currentPosition :=
              ⟨o.currentPosition.x - currentLearningRate * gradient.dx,
               o.currentPosition.y - currentLearningRate * gradient.dy⟩ }
      let o'' := recordCurrentState { o' with iteration := o'.iteration + 1 } now
      (o'', o''.getCurrentState)

end GradientDescentOptimizer

/-- JavaScript truthiness of a `null`-able number: `null` and `0` are falsy. -/
def numTruthy : Option ℝ → Prop
  | none => False
  | some r => r ≠ 0

/-- A JavaScript number that is either an ordinary (finite) real or one of
the non-finite values `Infinity`/`-Infinity`/`NaN`. -/
inductive JsNum where
  | num (r : ℝ)
  | nonfinite

/-- JavaScript division of finite reals: division by zero produces a
non-finite value (`±Infinity` or `NaN`), otherwise the real quotient. -/
def jsDiv (a b : ℝ) : JsNum :=
  if b = 0 then JsNum.nonfinite else JsNum.num (a / b)

/-- Multiplying a `JsNum` by a nonzero finite constant: non-finite values
stay non-finite. -/
def JsNum.mulConst : JsNum → ℝ → JsNum
  | JsNum.num r, c => JsNum.num (r * c)
  | JsNum.nonfinite, _ => JsNum.nonfinite

namespace GradientDescentOptimizer

/-- `runSteps`' loop `for (let i = 0; i < steps && !this.converged; i++)
results.push(this.step())`, by recursion on the remaining count. -/
def runStepsLoop (now : ℝ) :
    ℕ → GradientDescentOptimizer → GradientDescentOptimizer × List StepState
  | 0, o => (o, [])
  | n + 1, o =>
    if o.converged = true then (o, [])
    else
      let p := o.step now
      let r := runStepsLoop now n p.1
      (r.1, p.2 :: r.2)

/-- `runSteps(steps)`: starts timing if not running, loops `step()`, and on
convergence backfills `endTime` if it is not already (truthily) set. -/
def runSteps (o : GradientDescentOptimizer) (steps : ℕ) (now : ℝ) :
    GradientDescentOptimizer × List StepState :=
  let o₀ := if o.isRunning = true then o
            else { o with isRunning := true, startTime := some now }
  let r := runStepsLoop now steps o₀
  let o₁ := if r.1.converged = true ∧ ¬ numTruthy r.1.endTime
            then { r.1 with endTime := some now } else r.1
  (o₁, r.2)

/-- The `while (!this.converged && this.iteration < maxIterations)` loop of
`runToConvergence`, with explicit fuel. -/
def runToConvergenceLoop (now : ℝ) :
    ℕ → GradientDescentOptimizer → GradientDescentOptimizer
  | 0, o => o
  | n + 1, o =>
    if o.converged = false ∧ o.iteration < o.config.maxIterations then
      runToConvergenceLoop now n (o.step now).1
    else o

/-- `runToConvergence()`: loops `step()` until converged or exhausted, then
backfills `endTime` when it is not truthy; returns the full history.  The
fuel `maxIterations + 1 - iteration` is sufficient
(`runToConvergenceLoop_post` below), so this equals the source's `while`. -/
def runToConvergence (o : GradientDescentOptimizer) (now : ℝ) :
    GradientDescentOptimizer × List HistoryEntry :=
  let o₀ := if o.isRunning = true then o
            else { o with isRunning := true, startTime := some now }
  let o₁ := runToConvergenceLoop now (o₀.config.maxIterations + 1 - o₀.iteration) o₀
  let o₂ := if ¬ numTruthy o₁.endTime then { o₁ with endTime := some now } else o₁
  (o₂, o₂.history)

/-- `reset()`: zeroes the iteration/convergence/velocity state, clears the
history, the running flag and both timing fields; the position is kept. -/
def reset (o : GradientDescentOptimizer) : GradientDescentOptimizer :=
  { o with
    iteration := 0
    converged := false
    history := []
    isRunning := false
    velocity := ⟨0, 0⟩
    startTime := none
    endTime := none }

end GradientDescentOptimizer

/-- The statistics object returned by `getStatistics()`. -/
structure Statistics where
  iterations : ℕ
  converged : Bool
  initialValue : ℝ
  finalValue : ℝ
  improvement : ℝ
  improvementPercent : JsNum
  executionTime : Option ℝ
  averageStepTime : Option JsNum

namespace GradientDescentOptimizer

/-- `getStatistics()`: `null` when the history is empty, else the derived
statistics.  `this.endTime ? ... : null` is a truthiness test and
`this.endTime - this.startTime` coerces a `null` start to `0`. -/
def getStatistics (o : GradientDescentOptimizer) : Option Statistics :=
  if o.history.length = 0 then none
  else
    let initialValue := o.history.headI.functionValue
    let finalValue := o.history.getLastI.functionValue
    let improvement := initialValue - finalValue
    let improvementPercent := (jsDiv improvement |initialValue|).mulConst 100
    some
      { iterations := o.iteration
        converged := o.converged
        initialValue := initialValue
        finalValue := finalValue
        improvement := improvement
        improvementPercent := improvementPercent
        executionTime :=
          if numTruthy o.endTime then some (o.endTime.getD 0 - o.startTime.getD 0)
          else none
        averageStepTime :=
          if numTruthy o.endTime then
            some (jsDiv (o.endTime.getD 0 - o.startTime.getD 0) (o.iteration : ℝ))
          else none }

end GradientDescentOptimizer

/-- `quadraticBowl` from `math/functions.js`:
`f(x,y) = (x-1)² + (y-1)²`, gradient `(2(x-1), 2(y-1))`. -/
def quadraticBowl : ObjectiveFunction :=
  { value := fun x y => (x - 1) ^ 2 + (y - 1) ^ 2
    gradient := fun x y => ⟨2 * (x - 1), 2 * (y - 1)⟩ }

/-- One public mutating operation of the optimizer (used to quantify over
arbitrary call sequences). -/
inductive Op where
  | stepOp (now : ℝ)
  | runStepsOp (n : ℕ) (now : ℝ)
  | runToConvergenceOp (now : ℝ)

/-- Apply one operation to the state (discarding the returned value). -/
def applyOp (o : GradientDescentOptimizer) : Op → GradientDescentOptimizer
  | Op.stepOp now => (o.step now).1
  | Op.runStepsOp n now => (o.runSteps n now).1
  | Op.runToConvergenceOp now => (o.runToConvergence now).1

/-- Apply a sequence of operations from left to right. -/
def applyOps (o : GradientDescentOptimizer) : List Op → GradientDescentOptimizer
  | [] => o
  | op :: ops => applyOps (applyOp o op) ops

/-- Iterate bare `step` calls (all with the same clock value). -/
def stepN (o : GradientDescentOptimizer) (now : ℝ) : ℕ → GradientDescentOptimizer
  | 0 => o
  | n + 1 => ((stepN o now n).step now).1

end GradientDescent

namespace GradientDescent

namespace GradientDescentOptimizer

/-- In the already-converged / exhausted case, `step` only clears the
running flag and returns the current snapshot. -/
lemma step_terminal (o : GradientDescentOptimizer) (now : ℝ)
    (h : o.converged = true ∨ o.config.maxIterations ≤ o.iteration) :
    o.step now =
      ({ o with isRunning := false },
       ({ o with isRunning := false } : GradientDescentOptimizer).getCurrentState) := by
  unfold step
  rw [if_pos h]

/-- The gradient computed by `step` at the current position. -/
def stepGradient (o : GradientDescentOptimizer) : Grad :=
  o.func.gradient o.currentPosition.x o.currentPosition.y

/-- The gradient magnitude `step` compares against the tolerance. -/
def stepMagnitude (o : GradientDescentOptimizer) : ℝ :=
  mathUtils.vectorMagnitude o.stepGradient

/-- The effective learning rate `step` uses. -/
def effectiveLearningRate (o : GradientDescentOptimizer) : ℝ :=
  if o.config.adaptiveLearningRate = true ∧ 0 < o.iteration then
    o.config.learningRate * o.config.initialDecay ^ o.iteration
  else o.config.learningRate

/-- In the convergence-detection case, `step` only sets `converged`, clears
the running flag, stamps `endTime`, and returns the snapshot. -/
lemma step_converges (o : GradientDescentOptimizer) (now : ℝ)
    (h : ¬ (o.converged = true ∨ o.config.maxIterations ≤ o.iteration))
    (hm : o.stepMagnitude < o.config.tolerance) :
    o.step now =
      ({ o with converged := true, isRunning := false, endTime := some now },
       ({ o with converged := true, isRunning := false, endTime := some now } :
         GradientDescentOptimizer).getCurrentState) := by
  unfold stepMagnitude stepGradient at hm
  unfold step
  rw [if_neg h]
  simp only
  rw [if_pos hm]

/-- In the accepted-step case without momentum, `step` moves the position
against the gradient, bumps the iteration and records the new state. -/
lemma step_accepted_vanilla (o : GradientDescentOptimizer) (now : ℝ)
    (h : ¬ (o.converged = true ∨ o.config.maxIterations ≤ o.iteration))
    (hm : ¬ o.stepMagnitude < o.config.tolerance)
    (hmom : ¬ 0 < o.config.momentum) :
    o.step now =
      (recordCurrentState
        { o with
          currentPosition :=
            ⟨o.currentPosition.x - o.effectiveLearningRate * o.stepGradient.dx,
             o.currentPosition.y - o.effectiveLearningRate * o.stepGradient.dy⟩
          iteration := o.iteration + 1 } now,
       (recordCurrentState
        { o with
          currentPosition :=
            ⟨o.currentPosition.x - o.effectiveLearningRate * o.stepGradient.dx,
             o.currentPosition.y - o.effectiveLearningRate * o.stepGradient.dy⟩
          iteration := o.iteration + 1 } now).getCurrentState) := by
  unfold stepMagnitude stepGradient at hm
  unfold step
  rw [if_neg h]
  simp only
  rw [if_neg hm]
  rw [if_neg hmom]
  rfl

/-- In the accepted-step case with momentum, `step` updates the velocity,
adds it to the position, bumps the iteration and records the new state. -/
lemma step_accepted_momentum (o : GradientDescentOptimizer) (now : ℝ)
    (h : ¬ (o.converged = true ∨ o.config.maxIterations ≤ o.iteration))
    (hm : ¬ o.stepMagnitude < o.config.tolerance)
    (hmom : 0 < o.config.momentum) :
    o.step now =
      (recordCurrentState
        { o with
          velocity :=
            ⟨o.config.momentum * o.velocity.x - o.effectiveLearningRate * o.stepGradient.dx,
             o.config.momentum * o.velocity.y - o.effectiveLearningRate * o.stepGradient.dy⟩
          currentPosition :=
            ⟨o.currentPosition.x +
               (o.config.momentum * o.velocity.x - o.effectiveLearningRate * o.stepGradient.dx),
             o.currentPosition.y +
               (o.config.momentum * o.velocity.y - o.effectiveLearningRate * o.stepGradient.dy)⟩
          iteration := o.iteration + 1 } now,
       (recordCurrentState
        { o with
          velocity :=
            ⟨o.config.momentum * o.velocity.x - o.effectiveLearningRate * o.stepGradient.dx,
             o.config.momentum * o.velocity.y - o.effectiveLearningRate * o.stepGradient.dy⟩
          currentPosition :=
            ⟨o.currentPosition.x +
               (o.config.momentum * o.velocity.x - o.effectiveLearningRate * o.stepGradient.dx),
             o.currentPosition.y +
               (o.config.momentum * o.velocity.y - o.effectiveLearningRate * o.stepGradient.dy)⟩
          iteration := o.iteration + 1 } now).getCurrentState) := by
  unfold stepMagnitude stepGradient at hm
  unfold step
  rw [if_neg h]
  simp only
  rw [if_neg hm]
  rw [if_pos hmom]
  rfl

/-- `step` never changes the objective function. -/
lemma func_step (o : GradientDescentOptimizer) (now : ℝ) :
    (o.step now).1.func = o.func := by
  simp only [step]
  split_ifs <;> rfl

/-- `step` never changes the configuration. -/
lemma config_step (o : GradientDescentOptimizer) (now : ℝ) :
    (o.step now).1.config = o.config := by
  simp only [step]
  split_ifs <;> rfl

/-- `step` never writes `startTime`. -/
lemma startTime_step (o : GradientDescentOptimizer) (now : ℝ) :
    (o.step now).1.startTime = o.startTime := by
  simp only [step]
  split_ifs <;> rfl

/-- `step` never lowers a satisfied iteration cap: if the iteration count is
within `maxIterations` it stays within. -/
lemma iteration_step_le (o : GradientDescentOptimizer) (now : ℝ)
    (h : o.iteration ≤ o.config.maxIterations) :
    (o.step now).1.iteration ≤ o.config.maxIterations := by
  by_cases hT : o.converged = true ∨ o.config.maxIterations ≤ o.iteration
  · rw [step_terminal o now hT]
    exact h
  · have hlt : o.iteration < o.config.maxIterations := by
      rcases not_or.mp hT with ⟨-, h2⟩
      omega
    by_cases hm : o.stepMagnitude < o.config.tolerance
    · rw [step_converges o now hT hm]
      exact h
    · by_cases hmom : 0 < o.config.momentum
      · rw [step_accepted_momentum o now hT hm hmom]
        exact hlt
      · rw [step_accepted_vanilla o now hT hm hmom]
        exact hlt

end GradientDescentOptimizer

/-- A terminal optimizer used as a concrete input below. -/
def c3opt : GradientDescentOptimizer :=
  { GradientDescentOptimizer.create quadraticBowl defaultConfig with converged := true }

/-- **C3**: when the optimizer is already converged or has exhausted
`maxIterations`, `step()` is a no-op apart from clearing the running flag:
it returns the unchanged snapshot, a second call returns the identical
state, iterating `step` from any state never pushes `iteration` beyond
`maxIterations`, and once terminal every further call leaves the state
fixed. -/
theorem step_terminal_noop :
    (∀ (o : GradientDescentOptimizer) (now now₂ : ℝ),
      o.converged = true ∨ o.config.maxIterations ≤ o.iteration →
        (o.step now).1 = { o with isRunning := false } ∧
        (o.step now).2 = o.getCurrentState ∧
        ((o.step now).1.step now₂).1 = (o.step now).1 ∧
        (∀ k, 1 ≤ k → stepN o now k = { o with isRunning := false })) ∧
    (∀ (o : GradientDescentOptimizer) (now : ℝ) (k : ℕ),
      o.iteration ≤ o.config.maxIterations →
        (stepN o now k).iteration ≤ o.config.maxIterations) := by
  constructor
  · intro o now now₂ h
    have h1 : (o.step now).1 = { o with isRunning := false } := by
      rw [GradientDescentOptimizer.step_terminal o now h]
    have hfix : ∀ t : ℝ, ({ o with isRunning := false } :
        GradientDescentOptimizer).step t =
        ({ o with isRunning := false },
         ({ o with isRunning := false } : GradientDescentOptimizer).getCurrentState) :=
      fun t => GradientDescentOptimizer.step_terminal _ t h
    refine ⟨h1, ?_, ?_, ?_⟩
    · rw [GradientDescentOptimizer.step_terminal o now h]
      rfl
    · rw [h1, hfix now₂]
    · intro k hk
      induction k with
      | zero => omega
      | succ n ih =>
        rcases Nat.lt_or_ge 1 (n + 1) with hn | hn
        · have hn' : 1 ≤ n := by omega
          show ((stepN o now n).step now).1 = _
          rw [ih hn']
          rw [hfix now]
        · have hn0 : n = 0 := by omega
          subst hn0
          show ((stepN o now 0).step now).1 = _
          show (o.step now).1 = _
          exact h1
  · intro o now k h
    induction k with
    | zero => exact h
    | succ n ih =>
      show ((stepN o now n).step now).1.iteration ≤ o.config.maxIterations
      have hc : (stepN o now n).config = o.config := by
        clear ih
        induction n with
        | zero => rfl
        | succ m ihm =>
          show ((stepN o now m).step now).1.config = o.config
          rw [GradientDescentOptimizer.config_step, ihm]
      have := GradientDescentOptimizer.iteration_step_le (stepN o now n) now
        (by rw [hc]; exact ih)
      rw [hc] at this
      exact this

/-- **C3 witness**: the terminal branch evaluated at a concrete optimizer. -/
theorem step_terminal_noop_witness :
    c3opt.converged = true ∧
    c3opt.iteration ≤ c3opt.config.maxIterations ∧
    (c3opt.step 0).1 = { c3opt with isRunning := false } ∧
    (stepN c3opt 0 3).iteration ≤ c3opt.config.maxIterations :=
  ⟨rfl, by norm_num [c3opt, GradientDescentOptimizer.create, defaultConfig],
   (step_terminal_noop.1 c3opt 0 0 (Or.inl rfl)).1,
   step_terminal_noop.2 c3opt 0 3
     (by norm_num [c3opt, GradientDescentOptimizer.create, defaultConfig])⟩

end GradientDescent

namespace GradientDescent

/-- **C10**: `reset()` zeroes iteration, convergence flag and velocity,
clears history, the running flag and both timing fields, but keeps the
current position; immediately afterwards `getCurrentState()` still reports
the pre-reset position, the history is empty and `getStatistics()` is
`null`. -/
theorem reset_frame (o : GradientDescentOptimizer) :
    o.reset.iteration = 0 ∧
    o.reset.converged = false ∧
    o.reset.velocity = ⟨0, 0⟩ ∧
    o.reset.history = [] ∧
    o.reset.isRunning = false ∧
    o.reset.startTime = none ∧
    o.reset.endTime = none ∧
    o.reset.currentPosition = o.currentPosition ∧
    o.reset.func = o.func ∧
    o.reset.config = o.config ∧
    o.reset.getCurrentState.position = o.currentPosition ∧
    o.reset.getCurrentState.iteration = 0 ∧
    o.reset.getStatistics = none := by
  refine ⟨rfl, rfl, rfl, rfl, rfl, rfl, rfl, rfl, rfl, rfl, rfl, rfl, ?_⟩
  simp [GradientDescentOptimizer.reset, GradientDescentOptimizer.getStatistics]

/-- The concrete run used to refute the "timing cleared" part of the
`initialize` claim: a fresh optimizer, initialized, then driven through
`runSteps(1)` at clock time `5` (which records `startTime = 5`). -/
def c4run : GradientDescentOptimizer :=
  (((GradientDescentOptimizer.create quadraticBowl defaultConfig).init 2 2 0).runSteps 1 5).1

/-- **C4 counterexample**: after `initialize`, the timing fields are NOT
cleared — re-initializing the optimizer `c4run` (whose `startTime` is `5`)
leaves `startTime = 5` instead of clearing it. -/
theorem init_does_not_clear_timing :
    c4run.startTime = some 5 ∧ (c4run.init 0 0 7).startTime = some 5 := by
  have hrun : c4run.startTime = some 5 := by
    have hloop : ∀ (n : ℕ) (o : GradientDescentOptimizer) (now : ℝ),
        (GradientDescentOptimizer.runStepsLoop now n o).1.startTime = o.startTime := by
      intro n
      induction n with
      | zero => intro o now; rfl
      | succ m ih =>
        intro o now
        show (if o.converged = true then _ else _ :
          GradientDescentOptimizer × List StepState).1.startTime = _
        split_ifs
        · rfl
        · show (GradientDescentOptimizer.runStepsLoop now m (o.step now).1).1.startTime = _
          rw [ih, GradientDescentOptimizer.startTime_step]
    show ((((GradientDescentOptimizer.create quadraticBowl defaultConfig).init 2 2 0).runSteps
      1 5).1).startTime = some 5
    unfold GradientDescentOptimizer.runSteps
    simp only
    rw [if_neg (show ¬ ((GradientDescentOptimizer.create quadraticBowl
        defaultConfig).init 2 2 0).isRunning = true by
      simp only [Bool.not_eq_true]; rfl)]
    split_ifs with h
    · show (GradientDescentOptimizer.runStepsLoop 5 1 _).1.startTime = some 5
      rw [hloop]
    · show (GradientDescentOptimizer.runStepsLoop 5 1 _).1.startTime = some 5
      rw [hloop]
  exact ⟨hrun, by rw [show (c4run.init 0 0 7).startTime = c4run.startTime from rfl, hrun]⟩

/-- **C4** (amended): `initialize(x0, y0)` always succeeds and establishes
position `(x0, y0)`, zero velocity, iteration 0, `converged = false`, a
cleared running flag, and a history holding exactly one snapshot recorded at
iteration 0; immediately afterwards `getCurrentState()` reports position
`(x0, y0)`, iteration 0 and `converged = false`.  Unlike the original claim,
the timing fields `startTime`/`endTime` are NOT cleared but left unchanged
(see `init_does_not_clear_timing`). -/
theorem init_establishes_state (o : GradientDescentOptimizer) (x0 y0 now : ℝ) :
    (o.init x0 y0 now).currentPosition = ⟨x0, y0⟩ ∧
    (o.init x0 y0 now).velocity = ⟨0, 0⟩ ∧
    (o.init x0 y0 now).iteration = 0 ∧
    (o.init x0 y0 now).converged = false ∧
    (o.init x0 y0 now).isRunning = false ∧
    (o.init x0 y0 now).history =
      [HistoryEntry.ofState (o.init x0 y0 now).getCurrentState now] ∧
    (o.init x0 y0 now).history.headI.iteration = 0 ∧
    (o.init x0 y0 now).startTime = o.startTime ∧
    (o.init x0 y0 now).endTime = o.endTime ∧
    (o.init x0 y0 now).getCurrentState.position = ⟨x0, y0⟩ ∧
    (o.init x0 y0 now).getCurrentState.iteration = 0 ∧
    (o.init x0 y0 now).getCurrentState.converged = false :=
  ⟨rfl, rfl, rfl, rfl, rfl, rfl, rfl, rfl, rfl, rfl, rfl, rfl⟩

end GradientDescent

namespace GradientDescent

/-- **C1**: for a non-terminal, non-converging state, `step()` uses the
effective learning rate (base rate decayed by `initialDecay^iteration` only
when `adaptiveLearningRate` is on and `iteration > 0`), applies the
heavy-ball update when `momentum > 0` and the vanilla update otherwise, and
increments the iteration by exactly one. -/
theorem step_update_equations (o : GradientDescentOptimizer) (now : ℝ)
    (h1 : o.converged = false)
    (h2 : o.iteration < o.config.maxIterations)
    (h3 : o.config.tolerance ≤ o.stepMagnitude) :
    (o.step now).1.iteration = o.iteration + 1 ∧
    (o.config.adaptiveLearningRate = true ∧ 0 < o.iteration →
      o.effectiveLearningRate =
        o.config.learningRate * o.config.initialDecay ^ o.iteration) ∧
    (¬ (o.config.adaptiveLearningRate = true ∧ 0 < o.iteration) →
      o.effectiveLearningRate = o.config.learningRate) ∧
    (0 < o.config.momentum →
      (o.step now).1.velocity.x =
        o.config.momentum * o.velocity.x - o.effectiveLearningRate * o.stepGradient.dx ∧
      (o.step now).1.velocity.y =
        o.config.momentum * o.velocity.y - o.effectiveLearningRate * o.stepGradient.dy ∧
      (o.step now).1.currentPosition.x = o.currentPosition.x + (o.step now).1.velocity.x ∧
      (o.step now).1.currentPosition.y = o.currentPosition.y + (o.step now).1.velocity.y) ∧
    (¬ 0 < o.config.momentum →
      (o.step now).1.currentPosition.x =
        o.currentPosition.x - o.effectiveLearningRate * o.stepGradient.dx ∧
      (o.step now).1.currentPosition.y =
        o.currentPosition.y - o.effectiveLearningRate * o.stepGradient.dy ∧
      (o.step now).1.velocity = o.velocity) ∧
    (o.config.momentum = 0 ∧ o.config.adaptiveLearningRate = false →
      (o.step now).1.currentPosition.x =
        o.currentPosition.x - o.config.learningRate * o.stepGradient.dx ∧
      (o.step now).1.currentPosition.y =
        o.currentPosition.y - o.config.learningRate * o.stepGradient.dy) := by
  have hT : ¬ (o.converged = true ∨ o.config.maxIterations ≤ o.iteration) := by
    rw [not_or]
    exact ⟨by simp [h1], by omega⟩
  have hm : ¬ o.stepMagnitude < o.config.tolerance := not_lt.mpr h3
  have hlr : ¬ (o.config.adaptiveLearningRate = true ∧ 0 < o.iteration) →
      o.effectiveLearningRate = o.config.learningRate := by
    intro ha
    unfold GradientDescentOptimizer.effectiveLearningRate
    rw [if_neg ha]
  have hlr' : o.config.adaptiveLearningRate = true ∧ 0 < o.iteration →
      o.effectiveLearningRate =
        o.config.learningRate * o.config.initialDecay ^ o.iteration := by
    intro ha
    unfold GradientDescentOptimizer.effectiveLearningRate
    rw [if_pos ha]
  by_cases hmom : 0 < o.config.momentum
  · rw [GradientDescentOptimizer.step_accepted_momentum o now hT hm hmom]
    refine ⟨rfl, hlr', hlr, fun _ => ⟨rfl, rfl, rfl, rfl⟩, fun hc => absurd hmom hc, ?_⟩
    rintro ⟨hm0, -⟩
    rw [hm0] at hmom
    exact absurd hmom (lt_irrefl 0)
  · rw [GradientDescentOptimizer.step_accepted_vanilla o now hT hm hmom]
    refine ⟨rfl, hlr', hlr, fun hc => absurd hc hmom, fun _ => ⟨rfl, rfl, rfl⟩, ?_⟩
    rintro ⟨-, had⟩
    have he : o.effectiveLearningRate = o.config.learningRate :=
      hlr (by simp [had])
    constructor
    · show o.currentPosition.x - o.effectiveLearningRate * o.stepGradient.dx = _
      rw [he]
    · show o.currentPosition.y - o.effectiveLearningRate * o.stepGradient.dy = _
      rw [he]

/-- The freshly initialized optimizer on the quadratic bowl at `(2, 2)`,
used as a concrete input below. -/
def c1opt : GradientDescentOptimizer :=
  (GradientDescentOptimizer.create quadraticBowl defaultConfig).init 2 2 0

/-- **C1 witness**: the update equations evaluated on the quadratic bowl at
`(2, 2)` with the default configuration. -/
theorem step_update_equations_witness :
    c1opt.converged = false ∧
    c1opt.iteration < c1opt.config.maxIterations ∧
    c1opt.config.tolerance ≤ c1opt.stepMagnitude ∧
    (c1opt.step 0).1.iteration = c1opt.iteration + 1 := by
  have h1 : c1opt.converged = false := rfl
  have h2 : c1opt.iteration < c1opt.config.maxIterations := by
    show (0 : ℕ) < 1000
    norm_num
  have h3 : c1opt.config.tolerance ≤ c1opt.stepMagnitude := by
    show (1 / 1000000 : ℝ) ≤
      mathUtils.vectorMagnitude (quadraticBowl.gradient 2 2)
    unfold mathUtils.vectorMagnitude quadraticBowl
    simp only
    apply Real.le_sqrt_of_sq_le
    norm_num
  exact ⟨h1, h2, h3, (step_update_equations c1opt 0 h1 h2 h3).1⟩

end GradientDescent

namespace GradientDescent

/-- Configuration that exhausts `maxIterations` in one step while landing
exactly on the minimum: learning rate `1/2`, `maxIterations = 1`. -/
def c2cfg : Config :=
  { learningRate := 1 / 2
    maxIterations := 1
    tolerance := 1 / 1000000
    momentum := 0
    adaptiveLearningRate := false
    initialDecay := 9 / 10 }

/-- Quadratic bowl from `(2, 2)` under `c2cfg`; one step lands on `(1, 1)`
and exhausts the iteration budget. -/
def c2o0 : GradientDescentOptimizer :=
  (GradientDescentOptimizer.create quadraticBowl c2cfg).init 2 2 0

/-- **C2 counterexample**: an initialized optimizer whose gradient magnitude
at the current position is below the tolerance, yet the next `step()` call
does NOT set `converged = true` — the optimizer is exhausted
(`iteration >= maxIterations`), and the exhaustion guard runs before the
convergence check. -/
theorem exhausted_within_tolerance_not_marked :
    ((c2o0.step 0).1).stepMagnitude < ((c2o0.step 0).1).config.tolerance ∧
    (((c2o0.step 0).1).step 0).1.converged = false := by
  have hT : ¬ (c2o0.converged = true ∨ c2o0.config.maxIterations ≤ c2o0.iteration) := by
    rw [not_or]
    constructor
    · show ¬ false = true
      simp
    · show ¬ (1 ≤ 0)
      omega
  have hm : ¬ c2o0.stepMagnitude < c2o0.config.tolerance := by
    rw [not_lt]
    show (1 / 1000000 : ℝ) ≤ mathUtils.vectorMagnitude (quadraticBowl.gradient 2 2)
    unfold mathUtils.vectorMagnitude quadraticBowl
    simp only
    apply Real.le_sqrt_of_sq_le
    norm_num
  have hmom : ¬ 0 < c2o0.config.momentum := by
    show ¬ (0 : ℝ) < 0
    simp
  have hstep := GradientDescentOptimizer.step_accepted_vanilla c2o0 0 hT hm hmom
  have helr : c2o0.effectiveLearningRate = 1 / 2 := by
    unfold GradientDescentOptimizer.effectiveLearningRate
    rw [if_neg]
    · rfl
    · rintro ⟨ha, -⟩
      exact absurd ha (by simp [show c2o0.config.adaptiveLearningRate = false from rfl])
  have hpos : ((c2o0.step 0).1).currentPosition = ⟨1, 1⟩ := by
    rw [hstep]
    show (⟨2 - c2o0.effectiveLearningRate * (2 * (2 - 1)),
          2 - c2o0.effectiveLearningRate * (2 * (2 - 1))⟩ : Vec2) = ⟨1, 1⟩
    rw [helr]
    norm_num
  have hmag : ((c2o0.step 0).1).stepMagnitude = 0 := by
    unfold GradientDescentOptimizer.stepMagnitude GradientDescentOptimizer.stepGradient
    rw [GradientDescentOptimizer.func_step, hpos]
    show mathUtils.vectorMagnitude (quadraticBowl.gradient (1 : ℝ) (1 : ℝ)) = 0
    unfold mathUtils.vectorMagnitude quadraticBowl
    simp only
    rw [Real.sqrt_eq_zero']
    norm_num
  have htol : ((c2o0.step 0).1).config.tolerance = 1 / 1000000 := by
    rw [GradientDescentOptimizer.config_step]
    rfl
  constructor
  · rw [hmag, htol]
    norm_num
  · have hterm : (c2o0.step 0).1.config.maxIterations ≤ (c2o0.step 0).1.iteration := by
      rw [GradientDescentOptimizer.config_step, hstep]
      show (1 : ℕ) ≤ c2o0.iteration + 1
      show (1 : ℕ) ≤ 0 + 1
      omega
    rw [GradientDescentOptimizer.step_terminal _ 0 (Or.inr hterm)]
    show ((c2o0.step 0).1).converged = false
    rw [hstep]
    rfl

/-- **C2** (amended): for an optimizer that has not yet exhausted its
iteration budget (`iteration < maxIterations`), if the gradient magnitude at
the current position is below the tolerance then the next `step()` call
leaves `converged = true` and does not change position, velocity, iteration
or history — the convergence check runs before any position update, so a
point within tolerance never moves.  (The original claim omitted the
`iteration < maxIterations` side condition; see
`exhausted_within_tolerance_not_marked`.) -/
theorem step_marks_convergence (o : GradientDescentOptimizer) (now : ℝ)
    (h2 : o.iteration < o.config.maxIterations)
    (hm : o.stepMagnitude < o.config.tolerance) :
    (o.step now).1.converged = true ∧
    (o.step now).1.currentPosition = o.currentPosition ∧
    (o.step now).1.velocity = o.velocity ∧
    (o.step now).1.iteration = o.iteration ∧
    (o.step now).1.history = o.history ∧
    (o.step now).2.converged = true := by
  by_cases hc : o.converged = true
  · rw [GradientDescentOptimizer.step_terminal o now (Or.inl hc)]
    exact ⟨hc, rfl, rfl, rfl, rfl, hc⟩
  · have hT : ¬ (o.converged = true ∨ o.config.maxIterations ≤ o.iteration) := by
      rw [not_or]
      exact ⟨hc, by omega⟩
    rw [GradientDescentOptimizer.step_converges o now hT hm]
    exact ⟨rfl, rfl, rfl, rfl, rfl, rfl⟩

/-- An optimizer initialized exactly at the bowl's minimum. -/
def c2min : GradientDescentOptimizer :=
  (GradientDescentOptimizer.create quadraticBowl defaultConfig).init 1 1 0

/-- **C2 witness**: starting at the minimum `(1, 1)`, the first `step()`
marks convergence and moves nothing. -/
theorem step_marks_convergence_witness :
    c2min.iteration < c2min.config.maxIterations ∧
    c2min.stepMagnitude < c2min.config.tolerance ∧
    ((c2min.step 0).1.converged = true ∧
     (c2min.step 0).1.currentPosition = c2min.currentPosition) := by
  have h2 : c2min.iteration < c2min.config.maxIterations := by
    show (0 : ℕ) < 1000
    norm_num
  have hm : c2min.stepMagnitude < c2min.config.tolerance := by
    show mathUtils.vectorMagnitude (quadraticBowl.gradient (1 : ℝ) (1 : ℝ)) < 1 / 1000000
    unfold mathUtils.vectorMagnitude quadraticBowl
    simp only
    have hz : Real.sqrt (2 * ((1 : ℝ) - 1) * (2 * ((1 : ℝ) - 1)) +
        2 * ((1 : ℝ) - 1) * (2 * ((1 : ℝ) - 1))) = 0 := by
      rw [Real.sqrt_eq_zero']
      norm_num
    rw [hz]
    norm_num
  have h := step_marks_convergence c2min 0 h2 hm
  exact ⟨h2, hm, h.1, h.2.1⟩

end GradientDescent

namespace GradientDescent

/-- **C7**: `getStatistics()` returns `null` exactly when the history is
empty; otherwise it reports the current iteration count and convergence
flag, the first/last history function values, their difference as
`improvement`, and `improvement / |initialValue| * 100` as
`improvementPercent` — which degenerates to a non-finite value (JavaScript
`Infinity`/`NaN`) exactly when `initialValue = 0`, propagating silently
instead of raising an error. -/
theorem getStatistics_spec (o : GradientDescentOptimizer) :
    (o.getStatistics = none ↔ o.history = []) ∧
    (o.history ≠ [] →
      ∃ s, o.getStatistics = some s ∧
        s.iterations = o.iteration ∧
        s.converged = o.converged ∧
        s.initialValue = o.history.headI.functionValue ∧
        s.finalValue = o.history.getLastI.functionValue ∧
        s.improvement = s.initialValue - s.finalValue ∧
        (s.initialValue ≠ 0 →
          s.improvementPercent = JsNum.num (s.improvement / |s.initialValue| * 100)) ∧
        (s.initialValue = 0 → s.improvementPercent = JsNum.nonfinite)) := by
  by_cases hh : o.history.length = 0
  · have he : o.history = [] := List.length_eq_zero.mp hh
    refine ⟨⟨fun _ => he, fun _ => ?_⟩, fun hne => absurd he hne⟩
    unfold GradientDescentOptimizer.getStatistics
    rw [if_pos hh]
  · have hne : o.history ≠ [] := fun he => hh (by rw [he]; rfl)
    have hs : o.getStatistics = some
        { iterations := o.iteration
          converged := o.converged
          initialValue := o.history.headI.functionValue
          finalValue := o.history.getLastI.functionValue
          improvement := o.history.headI.functionValue - o.history.getLastI.functionValue
          improvementPercent :=
            (jsDiv (o.history.headI.functionValue - o.history.getLastI.functionValue)
              |o.history.headI.functionValue|).mulConst 100
          executionTime :=
            if numTruthy o.endTime then some (o.endTime.getD 0 - o.startTime.getD 0)
            else none
          averageStepTime :=
            if numTruthy o.endTime then
              some (jsDiv (o.endTime.getD 0 - o.startTime.getD 0) (o.iteration : ℝ))
            else none } := by
      unfold GradientDescentOptimizer.getStatistics
      rw [if_neg hh]
    refine ⟨⟨fun hn => ?_, fun he => absurd he hne⟩, fun _ => ?_⟩
    · rw [hs] at hn
      exact absurd hn (Option.some_ne_none _)
    · refine ⟨_, hs, rfl, rfl, rfl, rfl, rfl, fun hnz => ?_, fun hz => ?_⟩
      · have hnz' : o.history.headI.functionValue ≠ 0 := hnz
        show (jsDiv (o.history.headI.functionValue - o.history.getLastI.functionValue)
          |o.history.headI.functionValue|).mulConst 100 = _
        unfold jsDiv
        rw [if_neg (abs_ne_zero.mpr hnz')]
        rfl
      · have hz' : o.history.headI.functionValue = 0 := hz
        show (jsDiv (o.history.headI.functionValue - o.history.getLastI.functionValue)
          |o.history.headI.functionValue|).mulConst 100 = _
        rw [hz']
        unfold jsDiv
        rw [if_pos (by rw [abs_zero])]
        rfl

/-- A freshly initialized optimizer with a one-entry history, used as a
concrete input below. -/
def c7opt : GradientDescentOptimizer :=
  (GradientDescentOptimizer.create quadraticBowl defaultConfig).init 2 2 0

/-- **C7 witness**: the statistics of a freshly initialized optimizer. -/
theorem getStatistics_spec_witness :
    c7opt.history ≠ [] ∧
    ∃ s, c7opt.getStatistics = some s ∧ s.iterations = c7opt.iteration := by
  have hne : c7opt.history ≠ [] := by
    simp [c7opt, GradientDescentOptimizer.init, GradientDescentOptimizer.recordCurrentState,
      GradientDescentOptimizer.create]
  obtain ⟨s, hs, hit, -⟩ := (getStatistics_spec c7opt).2 hne
  exact ⟨hne, s, hs, hit⟩

end GradientDescent

namespace GradientDescent

/-- Two optimizer states that agree on everything except the bookkeeping
flags `isRunning`, `startTime`, `endTime`.  The stepping dynamics never read
those three fields, so `SameCore` is a simulation relation for `step`. -/
def SameCore (a b : GradientDescentOptimizer) : Prop :=
  a.func = b.func ∧ a.config = b.config ∧ a.currentPosition = b.currentPosition ∧
  a.velocity = b.velocity ∧ a.iteration = b.iteration ∧ a.converged = b.converged ∧
  a.history = b.history

lemma sameCore_refl (a : GradientDescentOptimizer) : SameCore a a :=
  ⟨rfl, rfl, rfl, rfl, rfl, rfl, rfl⟩

lemma sameCore_symm {a b : GradientDescentOptimizer} (h : SameCore a b) : SameCore b a :=
  ⟨h.1.symm, h.2.1.symm, h.2.2.1.symm, h.2.2.2.1.symm, h.2.2.2.2.1.symm,
   h.2.2.2.2.2.1.symm, h.2.2.2.2.2.2.symm⟩

lemma sameCore_trans {a b c : GradientDescentOptimizer}
    (h₁ : SameCore a b) (h₂ : SameCore b c) : SameCore a c :=
  ⟨h₁.1.trans h₂.1, h₁.2.1.trans h₂.2.1, h₁.2.2.1.trans h₂.2.2.1,
   h₁.2.2.2.1.trans h₂.2.2.2.1, h₁.2.2.2.2.1.trans h₂.2.2.2.2.1,
   h₁.2.2.2.2.2.1.trans h₂.2.2.2.2.2.1, h₁.2.2.2.2.2.2.trans h₂.2.2.2.2.2.2⟩

lemma getCurrentState_congr {a b : GradientDescentOptimizer} (h : SameCore a b) :
    a.getCurrentState = b.getCurrentState := by
  obtain ⟨hf, hc, hp, hv, hi, hcv, hh⟩ := h
  unfold GradientDescentOptimizer.getCurrentState
  rw [hf, hc, hp, hi, hcv]

lemma recordCurrentState_congr {a b : GradientDescentOptimizer} (h : SameCore a b)
    (now : ℝ) : SameCore (a.recordCurrentState now) (b.recordCurrentState now) := by
  obtain ⟨hf, hc, hp, hv, hi, hcv, hh⟩ := h
  exact ⟨hf, hc, hp, hv, hi, hcv, by
    show a.history ++ [HistoryEntry.ofState a.getCurrentState now] =
      b.history ++ [HistoryEntry.ofState b.getCurrentState now]
    rw [hh, getCurrentState_congr ⟨hf, hc, hp, hv, hi, hcv, hh⟩]⟩

/-- `step` preserves `SameCore` and produces identical snapshots. -/
lemma step_congr {a b : GradientDescentOptimizer} (h : SameCore a b) (now : ℝ) :
    SameCore (a.step now).1 (b.step now).1 ∧ (a.step now).2 = (b.step now).2 := by
  obtain ⟨hf, hc, hp, hv, hi, hcv, hh⟩ := h
  by_cases hT : a.converged = true ∨ a.config.maxIterations ≤ a.iteration
  · have hT' : b.converged = true ∨ b.config.maxIterations ≤ b.iteration := by
      rw [← hc, ← hi, ← hcv]
      exact hT
    rw [GradientDescentOptimizer.step_terminal a now hT,
        GradientDescentOptimizer.step_terminal b now hT']
    exact ⟨⟨hf, hc, hp, hv, hi, hcv, hh⟩,
      getCurrentState_congr ⟨hf, hc, hp, hv, hi, hcv, hh⟩⟩
  · have hT' : ¬ (b.converged = true ∨ b.config.maxIterations ≤ b.iteration) := by
      rw [← hc, ← hi, ← hcv]
      exact hT
    have hmag : a.stepMagnitude = b.stepMagnitude := by
      unfold GradientDescentOptimizer.stepMagnitude GradientDescentOptimizer.stepGradient
      rw [hf, hp]
    by_cases hm : a.stepMagnitude < a.config.tolerance
    · have hm' : b.stepMagnitude < b.config.tolerance := by
        rw [← hmag, ← hc]
        exact hm
      rw [GradientDescentOptimizer.step_converges a now hT hm,
          GradientDescentOptimizer.step_converges b now hT' hm']
      exact ⟨⟨hf, hc, hp, hv, hi, rfl, hh⟩,
        getCurrentState_congr ⟨hf, hc, hp, hv, hi, rfl, hh⟩⟩
    · have hm' : ¬ b.stepMagnitude < b.config.tolerance := by
        rw [← hmag, ← hc]
        exact hm
      have helr : a.effectiveLearningRate = b.effectiveLearningRate := by
        unfold GradientDescentOptimizer.effectiveLearningRate
        rw [hc, hi]
      have hg : a.stepGradient = b.stepGradient := by
        unfold GradientDescentOptimizer.stepGradient
        rw [hf, hp]
      by_cases hmom : 0 < a.config.momentum
      · have hmom' : 0 < b.config.momentum := by
          rw [← hc]
          exact hmom
        rw [GradientDescentOptimizer.step_accepted_momentum a now hT hm hmom,
            GradientDescentOptimizer.step_accepted_momentum b now hT' hm' hmom']
        have hcore : SameCore
            { a with
              velocity :=
                ⟨a.config.momentum * a.velocity.x - a.effectiveLearningRate * a.stepGradient.dx,
                 a.config.momentum * a.velocity.y - a.effectiveLearningRate * a.stepGradient.dy⟩
              currentPosition :=
                ⟨a.currentPosition.x +
                   (a.config.momentum * a.velocity.x - a.effectiveLearningRate * a.stepGradient.dx),
                 a.currentPosition.y +
                   (a.config.momentum * a.velocity.y - a.effectiveLearningRate * a.stepGradient.dy)⟩
              iteration := a.iteration + 1 }
            { b with
              velocity :=
                ⟨b.config.momentum * b.velocity.x - b.effectiveLearningRate * b.stepGradient.dx,
                 b.config.momentum * b.velocity.y - b.effectiveLearningRate * b.stepGradient.dy⟩
              currentPosition :=
                ⟨b.currentPosition.x +
                   (b.config.momentum * b.velocity.x - b.effectiveLearningRate * b.stepGradient.dx),
                 b.currentPosition.y +
                   (b.config.momentum * b.velocity.y - b.effectiveLearningRate * b.stepGradient.dy)⟩
              iteration := b.iteration + 1 } :=
          ⟨hf, hc, by rw [hp, hv, hc, helr, hg], by rw [hv, hc, helr, hg], by rw [hi], hcv, hh⟩
        exact ⟨recordCurrentState_congr hcore now,
          getCurrentState_congr (recordCurrentState_congr hcore now)⟩
      · have hmom' : ¬ 0 < b.config.momentum := by
          rw [← hc]
          exact hmom
        rw [GradientDescentOptimizer.step_accepted_vanilla a now hT hm hmom,
            GradientDescentOptimizer.step_accepted_vanilla b now hT' hm' hmom']
        have hcore : SameCore
            { a with
              currentPosition :=
                ⟨a.currentPosition.x - a.effectiveLearningRate * a.stepGradient.dx,
                 a.currentPosition.y - a.effectiveLearningRate * a.stepGradient.dy⟩
              iteration := a.iteration + 1 }
            { b with
              currentPosition :=
                ⟨b.currentPosition.x - b.effectiveLearningRate * b.stepGradient.dx,
                 b.currentPosition.y - b.effectiveLearningRate * b.stepGradient.dy⟩
              iteration := b.iteration + 1 } :=
          ⟨hf, hc, by rw [hp, helr, hg], hv, by rw [hi], hcv, hh⟩
        exact ⟨recordCurrentState_congr hcore now,
          getCurrentState_congr (recordCurrentState_congr hcore now)⟩

end GradientDescent

namespace GradientDescent

/-- A converged state short-circuits the `runSteps` loop immediately. -/
lemma runStepsLoop_converged (now : ℝ) (n : ℕ) (o : GradientDescentOptimizer)
    (h : o.converged = true) :
    GradientDescentOptimizer.runStepsLoop now n o = (o, []) := by
  cases n with
  | zero => rfl
  | succ m =>
    show (if o.converged = true then _ else _ :
      GradientDescentOptimizer × List StepState) = (o, [])
    rw [if_pos h]

/-- One unfolding of the `runSteps` loop. -/
lemma runStepsLoop_succ (now : ℝ) (m : ℕ) (o : GradientDescentOptimizer) :
    GradientDescentOptimizer.runStepsLoop now (m + 1) o =
      if o.converged = true then (o, []) else
        ((GradientDescentOptimizer.runStepsLoop now m (o.step now).1).1,
         (o.step now).2 ::
           (GradientDescentOptimizer.runStepsLoop now m (o.step now).1).2) := rfl

/-- The `runSteps` loop preserves `SameCore` and yields identical snapshot
lists. -/
lemma runStepsLoop_congr (now : ℝ) :
    ∀ (n : ℕ) {a b : GradientDescentOptimizer}, SameCore a b →
      SameCore (GradientDescentOptimizer.runStepsLoop now n a).1
        (GradientDescentOptimizer.runStepsLoop now n b).1 ∧
      (GradientDescentOptimizer.runStepsLoop now n a).2 =
        (GradientDescentOptimizer.runStepsLoop now n b).2 := by
  intro n
  induction n with
  | zero => exact fun h => ⟨h, rfl⟩
  | succ m ih =>
    intro a b h
    have hcv : a.converged = b.converged := h.2.2.2.2.2.1
    by_cases hca : a.converged = true
    · rw [runStepsLoop_converged now _ a hca,
        runStepsLoop_converged now _ b (by rw [← hcv]; exact hca)]
      exact ⟨h, rfl⟩
    · have hcb : ¬ b.converged = true := by
        rw [← hcv]
        exact hca
      rw [runStepsLoop_succ now m a, runStepsLoop_succ now m b, if_neg hca, if_neg hcb]
      have hs := step_congr h now
      have hl := ih hs.1
      exact ⟨hl.1, by rw [hs.2, hl.2]⟩

/-- Conditionally overwriting `endTime` keeps the core unchanged. -/
lemma sameCore_setEndTime (x : GradientDescentOptimizer) (p : Prop) [Decidable p]
    (t : Option ℝ) :
    SameCore (if p then { x with endTime := t } else x) x := by
  split_ifs
  · exact ⟨rfl, rfl, rfl, rfl, rfl, rfl, rfl⟩
  · exact sameCore_refl x

/-- Conditionally starting the timer keeps the core unchanged. -/
lemma sameCore_startRunning (o : GradientDescentOptimizer) (now : ℝ) :
    SameCore (if o.isRunning = true then o
      else { o with isRunning := true, startTime := some now }) o := by
  split_ifs
  · exact sameCore_refl o
  · exact ⟨rfl, rfl, rfl, rfl, rfl, rfl, rfl⟩

/-- `runSteps` is, up to the bookkeeping flags, the bare loop started at the
given state, and it returns the loop's snapshot list verbatim. -/
lemma runSteps_core (o : GradientDescentOptimizer) (n : ℕ) (now : ℝ) :
    SameCore ((o.runSteps n now).1)
      ((GradientDescentOptimizer.runStepsLoop now n o).1) ∧
    (o.runSteps n now).2 = (GradientDescentOptimizer.runStepsLoop now n o).2 := by
  unfold GradientDescentOptimizer.runSteps
  simp only
  have hloop := runStepsLoop_congr now n (sameCore_startRunning o now)
  exact ⟨sameCore_trans (sameCore_setEndTime _ _ _) hloop.1, hloop.2⟩

/-- Composing one loop pass with an `m`-pass loop equals an `(m+1)`-pass
loop. -/
lemma runStepsLoop_one_comp (now : ℝ) (m : ℕ) (o : GradientDescentOptimizer) :
    (GradientDescentOptimizer.runStepsLoop now m
      (GradientDescentOptimizer.runStepsLoop now 1 o).1).1 =
    (GradientDescentOptimizer.runStepsLoop now (m + 1) o).1 := by
  by_cases hc : o.converged = true
  · rw [runStepsLoop_converged now 1 o hc, runStepsLoop_converged now (m + 1) o hc]
    show (GradientDescentOptimizer.runStepsLoop now m o).1 = o
    rw [runStepsLoop_converged now m o hc]
  · have h1 : GradientDescentOptimizer.runStepsLoop now 1 o =
        ((o.step now).1, [(o.step now).2]) := by
      rw [runStepsLoop_succ now 0 o, if_neg hc]
      rfl
    rw [h1, runStepsLoop_succ now m o, if_neg hc]

end GradientDescent

namespace GradientDescent

/-- Iterating `runSteps(1)` agrees with the bare loop on the core fields. -/
lemma iterate_runSteps_core (now : ℝ) :
    ∀ (k : ℕ) (o : GradientDescentOptimizer),
      SameCore ((fun s : GradientDescentOptimizer => (s.runSteps 1 now).1)^[k] o)
        ((GradientDescentOptimizer.runStepsLoop now k o).1) := by
  intro k
  induction k with
  | zero => exact fun o => sameCore_refl o
  | succ m ih =>
    intro o
    rw [Function.iterate_succ_apply]
    have h1 := ih ((o.runSteps 1 now).1)
    have h2 := runStepsLoop_congr now m (runSteps_core o 1 now).1
    have h4 := sameCore_trans h1 h2.1
    rw [runStepsLoop_one_comp now m o] at h4
    exact h4

/-- **C8**: calling `runSteps(1)` k times in sequence and calling
`runSteps(k)` once from the same state produce the same position, velocity,
iteration count, convergence flag — and in fact the identical history, so in
particular the same history length.  (This holds even when convergence
intervenes, so in particular under the claim's no-intervening-convergence
assumption.) -/
theorem runSteps_batching_equiv (o : GradientDescentOptimizer) (k : ℕ) (now : ℝ) :
    ((fun s : GradientDescentOptimizer => (s.runSteps 1 now).1)^[k] o).currentPosition =
      ((o.runSteps k now).1).currentPosition ∧
    ((fun s : GradientDescentOptimizer => (s.runSteps 1 now).1)^[k] o).velocity =
      ((o.runSteps k now).1).velocity ∧
    ((fun s : GradientDescentOptimizer => (s.runSteps 1 now).1)^[k] o).iteration =
      ((o.runSteps k now).1).iteration ∧
    ((fun s : GradientDescentOptimizer => (s.runSteps 1 now).1)^[k] o).converged =
      ((o.runSteps k now).1).converged ∧
    ((fun s : GradientDescentOptimizer => (s.runSteps 1 now).1)^[k] o).history =
      ((o.runSteps k now).1).history ∧
    ((fun s : GradientDescentOptimizer => (s.runSteps 1 now).1)^[k] o).history.length =
      ((o.runSteps k now).1).history.length := by
  have hc := sameCore_trans (iterate_runSteps_core now k o)
    (sameCore_symm (runSteps_core o k now).1)
  obtain ⟨-, -, hp, hv, hi, hcv, hh⟩ := hc
  exact ⟨hp, hv, hi, hcv, hh, by rw [hh]⟩

end GradientDescent

namespace GradientDescent

/-- One unfolding of the `runToConvergence` loop. -/
lemma runToConvergenceLoop_succ (now : ℝ) (m : ℕ) (o : GradientDescentOptimizer) :
    GradientDescentOptimizer.runToConvergenceLoop now (m + 1) o =
      if o.converged = false ∧ o.iteration < o.config.maxIterations then
        GradientDescentOptimizer.runToConvergenceLoop now m (o.step now).1
      else o := rfl

/-- A step-preserved, flag-insensitive predicate is preserved by the
`runSteps` loop. -/
lemma runStepsLoop_pres (P : GradientDescentOptimizer → Prop)
    (hstep : ∀ (o : GradientDescentOptimizer) (now : ℝ), P o → P (o.step now).1) :
    ∀ (n : ℕ) (o : GradientDescentOptimizer) (now : ℝ),
      P o → P (GradientDescentOptimizer.runStepsLoop now n o).1 := by
  intro n
  induction n with
  | zero => exact fun o now h => h
  | succ m ih =>
    intro o now h
    rw [runStepsLoop_succ]
    split_ifs
    · exact h
    · exact ih (o.step now).1 now (hstep o now h)

/-- A step-preserved predicate is preserved by the `runToConvergence`
loop. -/
lemma runToConvergenceLoop_pres (P : GradientDescentOptimizer → Prop)
    (hstep : ∀ (o : GradientDescentOptimizer) (now : ℝ), P o → P (o.step now).1) :
    ∀ (n : ℕ) (o : GradientDescentOptimizer) (now : ℝ),
      P o → P (GradientDescentOptimizer.runToConvergenceLoop now n o) := by
  intro n
  induction n with
  | zero => exact fun o now h => h
  | succ m ih =>
    intro o now h
    rw [runToConvergenceLoop_succ]
    split_ifs
    · exact ih (o.step now).1 now (hstep o now h)
    · exact h

/-- A predicate preserved by `step` and insensitive to the bookkeeping flags
is preserved by every public mutating operation. -/
lemma applyOp_pres (P : GradientDescentOptimizer → Prop)
    (hstep : ∀ (o : GradientDescentOptimizer) (now : ℝ), P o → P (o.step now).1)
    (hcore : ∀ {x y : GradientDescentOptimizer}, SameCore x y → P y → P x)
    (o : GradientDescentOptimizer) (op : Op) (h : P o) : P (applyOp o op) := by
  cases op with
  | stepOp now => exact hstep o now h
  | runStepsOp n now =>
    show P (o.runSteps n now).1
    have hloop : P (GradientDescentOptimizer.runStepsLoop now n o).1 :=
      runStepsLoop_pres P hstep n o now h
    exact hcore (runSteps_core o n now).1 hloop
  | runToConvergenceOp now =>
    show P (o.runToConvergence now).1
    unfold GradientDescentOptimizer.runToConvergence
    simp only
    refine hcore (sameCore_setEndTime _ _ _) ?_
    exact runToConvergenceLoop_pres P hstep _ _ now
      (hcore (sameCore_startRunning o now) h)

/-- `applyOp_pres` extended to operation sequences. -/
lemma applyOps_pres (P : GradientDescentOptimizer → Prop)
    (hstep : ∀ (o : GradientDescentOptimizer) (now : ℝ), P o → P (o.step now).1)
    (hcore : ∀ {x y : GradientDescentOptimizer}, SameCore x y → P y → P x) :
    ∀ (ops : List Op) (o : GradientDescentOptimizer), P o → P (applyOps o ops) := by
  intro ops
  induction ops with
  | nil => exact fun o h => h
  | cons op rest ih =>
    intro o h
    exact ih (applyOp o op) (applyOp_pres P hstep hcore o op h)

end GradientDescent

namespace GradientDescent

/-- C5's inductive invariant: the history holds one snapshot per iteration
(including iteration 0) and the snapshot iterations read `0, 1, 2, ...` in
order. -/
def HistoryIndexed (o : GradientDescentOptimizer) : Prop :=
  o.history.length = o.iteration + 1 ∧
  o.history.map (fun e => e.iteration) = List.range o.history.length

/-- C9's inductive invariant: no recorded snapshot is marked converged. -/
def HistoryConvFalse (o : GradientDescentOptimizer) : Prop :=
  ∀ e ∈ o.history, e.converged = false

/-- From the invariant, snapshot `i` was indeed taken at iteration `i`. -/
lemma historyIndexed_get {o : GradientDescentOptimizer} (h : HistoryIndexed o)
    (i : ℕ) (hi : i < o.history.length) :
    (o.history.get ⟨i, hi⟩).iteration = i := by
  have h1 : (o.history.map (fun e => e.iteration))[i]? =
      (List.range o.history.length)[i]? := by rw [h.2]
  rw [List.getElem?_map, List.getElem?_range hi,
    List.getElem?_eq_getElem (by simpa using hi)] at h1
  rw [List.get_eq_getElem]
  simpa using h1

lemma historyIndexed_core {x y : GradientDescentOptimizer} (hxy : SameCore x y)
    (h : HistoryIndexed y) : HistoryIndexed x := by
  obtain ⟨-, -, -, -, hi, -, hh⟩ := hxy
  constructor
  · rw [hh, hi]
    exact h.1
  · rw [hh]
    exact h.2

lemma historyConvFalse_core {x y : GradientDescentOptimizer} (hxy : SameCore x y)
    (h : HistoryConvFalse y) : HistoryConvFalse x := by
  intro e he
  apply h
  rw [← hxy.2.2.2.2.2.2]
  exact he

/-- Recording a snapshot keeps the history correctly indexed, provided the
iteration counter already equals the history length (as it does right after
the counter was bumped). -/
lemma historyIndexed_recordCurrentState (x : GradientDescentOptimizer) (now : ℝ)
    (hlen : x.history.length = x.iteration)
    (hmap : x.history.map (fun e => e.iteration) = List.range x.history.length) :
    HistoryIndexed (x.recordCurrentState now) := by
  have hit : (HistoryEntry.ofState x.getCurrentState now).iteration = x.iteration := rfl
  constructor
  · show (x.history ++ [HistoryEntry.ofState x.getCurrentState now]).length = x.iteration + 1
    rw [List.length_append, hlen]
    rfl
  · show (x.history ++ [HistoryEntry.ofState x.getCurrentState now]).map
        (fun e => e.iteration) =
      List.range ((x.history ++ [HistoryEntry.ofState x.getCurrentState now]).length)
    rw [List.map_append, List.length_append]
    show x.history.map (fun e => e.iteration) ++
        [(HistoryEntry.ofState x.getCurrentState now).iteration] =
      List.range (x.history.length + 1)
    rw [hit, List.range_succ, hmap, hlen]

/-- `step` preserves the indexing invariant. -/
lemma historyIndexed_step (o : GradientDescentOptimizer) (now : ℝ)
    (h : HistoryIndexed o) : HistoryIndexed (o.step now).1 := by
  by_cases hT : o.converged = true ∨ o.config.maxIterations ≤ o.iteration
  · rw [GradientDescentOptimizer.step_terminal o now hT]
    exact h
  · by_cases hm : o.stepMagnitude < o.config.tolerance
    · rw [GradientDescentOptimizer.step_converges o now hT hm]
      exact h
    · by_cases hmom : 0 < o.config.momentum
      · rw [GradientDescentOptimizer.step_accepted_momentum o now hT hm hmom]
        exact historyIndexed_recordCurrentState _ now h.1 h.2
      · rw [GradientDescentOptimizer.step_accepted_vanilla o now hT hm hmom]
        exact historyIndexed_recordCurrentState _ now h.1 h.2

/-- `step` preserves "no snapshot is marked converged": the only branch that
records a snapshot is the accepted branch, where `converged` is false. -/
lemma historyConvFalse_step (o : GradientDescentOptimizer) (now : ℝ)
    (h : HistoryConvFalse o) : HistoryConvFalse (o.step now).1 := by
  by_cases hT : o.converged = true ∨ o.config.maxIterations ≤ o.iteration
  · rw [GradientDescentOptimizer.step_terminal o now hT]
    exact h
  · have hcv : o.converged = false := Bool.not_eq_true _ ▸ (not_or.mp hT).1
    by_cases hm : o.stepMagnitude < o.config.tolerance
    · rw [GradientDescentOptimizer.step_converges o now hT hm]
      exact h
    · have hrec : ∀ x : GradientDescentOptimizer, x.history = o.history →
          x.converged = o.converged → HistoryConvFalse (x.recordCurrentState now) := by
        intro x hxh hxc e he
        unfold GradientDescentOptimizer.recordCurrentState at he
        simp only [List.mem_append, List.mem_singleton] at he
        rcases he with he | he
        · exact h e (hxh ▸ he)
        · rw [he]
          show x.converged = false
          rw [hxc, hcv]
      by_cases hmom : 0 < o.config.momentum
      · rw [GradientDescentOptimizer.step_accepted_momentum o now hT hm hmom]
        exact hrec _ rfl rfl
      · rw [GradientDescentOptimizer.step_accepted_vanilla o now hT hm hmom]
        exact hrec _ rfl rfl

end GradientDescent

namespace GradientDescent

/-- `initialize` establishes the indexing invariant (the single snapshot sits
at index 0 and was taken at iteration 0). -/
lemma historyIndexed_init (o : GradientDescentOptimizer) (x y now : ℝ) :
    HistoryIndexed (o.init x y now) :=
  ⟨rfl, rfl⟩

/-- `initialize` establishes "no snapshot is marked converged". -/
lemma historyConvFalse_init (o : GradientDescentOptimizer) (x y now : ℝ) :
    HistoryConvFalse (o.init x y now) := by
  intro e he
  simp only [GradientDescentOptimizer.init, GradientDescentOptimizer.recordCurrentState,
    List.nil_append, List.mem_singleton] at he
  rw [he]
  rfl

/-- One `step` call only ever appends to the history. -/
lemma step_history_extends (o : GradientDescentOptimizer) (now : ℝ) :
    ∃ t, (o.step now).1.history = o.history ++ t := by
  by_cases hT : o.converged = true ∨ o.config.maxIterations ≤ o.iteration
  · refine ⟨[], ?_⟩
    rw [GradientDescentOptimizer.step_terminal o now hT, List.append_nil]
  · by_cases hm : o.stepMagnitude < o.config.tolerance
    · refine ⟨[], ?_⟩
      rw [GradientDescentOptimizer.step_converges o now hT hm, List.append_nil]
    · by_cases hmom : 0 < o.config.momentum
      · refine ⟨[HistoryEntry.ofState ((o.step now).1.getCurrentState) now], ?_⟩
        rw [GradientDescentOptimizer.step_accepted_momentum o now hT hm hmom]
        try rfl
      · refine ⟨[HistoryEntry.ofState ((o.step now).1.getCurrentState) now], ?_⟩
        rw [GradientDescentOptimizer.step_accepted_vanilla o now hT hm hmom]
        try rfl

/-- The `runSteps` loop only ever appends to the history. -/
lemma runStepsLoop_history_extends (now : ℝ) :
    ∀ (n : ℕ) (o : GradientDescentOptimizer),
      ∃ t, (GradientDescentOptimizer.runStepsLoop now n o).1.history = o.history ++ t := by
  intro n
  induction n with
  | zero => exact fun o => ⟨[], (List.append_nil _).symm⟩
  | succ m ih =>
    intro o
    rw [runStepsLoop_succ]
    split_ifs
    · exact ⟨[], (List.append_nil _).symm⟩
    · obtain ⟨t₁, h₁⟩ := step_history_extends o now
      obtain ⟨t₂, h₂⟩ := ih (o.step now).1
      exact ⟨t₁ ++ t₂, by rw [h₂, h₁, List.append_assoc]⟩

/-- The `runToConvergence` loop only ever appends to the history. -/
lemma runToConvergenceLoop_history_extends (now : ℝ) :
    ∀ (n : ℕ) (o : GradientDescentOptimizer),
      ∃ t, (GradientDescentOptimizer.runToConvergenceLoop now n o).history =
        o.history ++ t := by
  intro n
  induction n with
  | zero => exact fun o => ⟨[], (List.append_nil _).symm⟩
  | succ m ih =>
    intro o
    rw [runToConvergenceLoop_succ]
    split_ifs
    · obtain ⟨t₁, h₁⟩ := step_history_extends o now
      obtain ⟨t₂, h₂⟩ := ih (o.step now).1
      exact ⟨t₁ ++ t₂, by rw [h₂, h₁, List.append_assoc]⟩
    · exact ⟨[], (List.append_nil _).symm⟩

/-- Every public mutating operation only ever appends to the history. -/
lemma applyOp_history_extends (o : GradientDescentOptimizer) (op : Op) :
    ∃ t, (applyOp o op).history = o.history ++ t := by
  cases op with
  | stepOp now => exact step_history_extends o now
  | runStepsOp n now =>
    obtain ⟨t, ht⟩ := runStepsLoop_history_extends now n o
    refine ⟨t, ?_⟩
    show (o.runSteps n now).1.history = o.history ++ t
    rw [(runSteps_core o n now).1.2.2.2.2.2.2, ht]
  | runToConvergenceOp now =>
    show ∃ t, (o.runToConvergence now).1.history = o.history ++ t
    unfold GradientDescentOptimizer.runToConvergence
    simp only
    obtain ⟨t, ht⟩ := runToConvergenceLoop_history_extends now
      ((if o.isRunning = true then o
        else { o with isRunning := true, startTime := some now }).config.maxIterations + 1 -
       (if o.isRunning = true then o
        else { o with isRunning := true, startTime := some now }).iteration)
      (if o.isRunning = true then o
       else { o with isRunning := true, startTime := some now })
    refine ⟨t, ?_⟩
    rw [(sameCore_setEndTime _ _ _).2.2.2.2.2.2, ht,
      (sameCore_startRunning o now).2.2.2.2.2.2]

end GradientDescent

namespace GradientDescent

/-- **C5**: starting from `initialize(x0, y0)` and applying any sequence of
`step`/`runSteps`/`runToConvergence` calls, the history satisfies
`history[i].iteration = i` with exactly one snapshot per accepted step plus
the initial snapshot (`length = iteration + 1`); every operation is
append-only; an accepted step appends exactly its one new snapshot, and a
rejected (terminal or converging) step appends nothing. -/
theorem history_indexed_by_iteration :
    (∀ (o : GradientDescentOptimizer) (op : Op),
      ∃ t, (applyOp o op).history = o.history ++ t) ∧
    (∀ (o : GradientDescentOptimizer) (x0 y0 now : ℝ) (ops : List Op),
      (applyOps (o.init x0 y0 now) ops).history.length =
        (applyOps (o.init x0 y0 now) ops).iteration + 1 ∧
      ∀ i (hi : i < (applyOps (o.init x0 y0 now) ops).history.length),
        ((applyOps (o.init x0 y0 now) ops).history.get ⟨i, hi⟩).iteration = i) ∧
    (∀ (o : GradientDescentOptimizer) (now : ℝ),
      o.converged = false → o.iteration < o.config.maxIterations →
      o.config.tolerance ≤ o.stepMagnitude →
      (o.step now).1.history =
        o.history ++ [HistoryEntry.ofState ((o.step now).1.getCurrentState) now]) ∧
    (∀ (o : GradientDescentOptimizer) (now : ℝ),
      o.converged = true ∨ o.config.maxIterations ≤ o.iteration ∨
        o.stepMagnitude < o.config.tolerance →
      (o.step now).1.history = o.history) := by
  refine ⟨applyOp_history_extends, ?_, ?_, ?_⟩
  · intro o x0 y0 now ops
    have hinv : HistoryIndexed (applyOps (o.init x0 y0 now) ops) :=
      applyOps_pres HistoryIndexed historyIndexed_step
        (fun hxy h => historyIndexed_core hxy h) ops _
        (historyIndexed_init o x0 y0 now)
    exact ⟨hinv.1, fun i hi => historyIndexed_get hinv i hi⟩
  · intro o now h1 h2 h3
    have hT : ¬ (o.converged = true ∨ o.config.maxIterations ≤ o.iteration) := by
      rw [not_or]
      exact ⟨by simp [h1], by omega⟩
    have hm : ¬ o.stepMagnitude < o.config.tolerance := not_lt.mpr h3
    by_cases hmom : 0 < o.config.momentum
    · rw [GradientDescentOptimizer.step_accepted_momentum o now hT hm hmom]
      rfl
    · rw [GradientDescentOptimizer.step_accepted_vanilla o now hT hm hmom]
      rfl
  · intro o now h
    by_cases hT : o.converged = true ∨ o.config.maxIterations ≤ o.iteration
    · rw [GradientDescentOptimizer.step_terminal o now hT]
    · have hm : o.stepMagnitude < o.config.tolerance := by
        rcases h with h | h | h
        · exact absurd (Or.inl h) hT
        · exact absurd (Or.inr h) hT
        · exact h
      rw [GradientDescentOptimizer.step_converges o now hT hm]

/-- The freshly initialized optimizer used for the C5 witness. -/
def c5opt : GradientDescentOptimizer :=
  (GradientDescentOptimizer.create quadraticBowl defaultConfig).init 2 2 0

/-- **C5 witness**: the accepted-step case evaluated on the quadratic bowl
at `(2, 2)` with the default configuration. -/
theorem history_indexed_by_iteration_witness :
    c5opt.converged = false ∧
    c5opt.iteration < c5opt.config.maxIterations ∧
    c5opt.config.tolerance ≤ c5opt.stepMagnitude ∧
    (c5opt.step 0).1.history =
      c5opt.history ++ [HistoryEntry.ofState ((c5opt.step 0).1.getCurrentState) 0] := by
  have h1 : c5opt.converged = false := rfl
  have h2 : c5opt.iteration < c5opt.config.maxIterations := by
    show (0 : ℕ) < 1000
    norm_num
  have h3 : c5opt.config.tolerance ≤ c5opt.stepMagnitude := by
    show (1 / 1000000 : ℝ) ≤ mathUtils.vectorMagnitude (quadraticBowl.gradient 2 2)
    unfold mathUtils.vectorMagnitude quadraticBowl
    simp only
    apply Real.le_sqrt_of_sq_le
    norm_num
  exact ⟨h1, h2, h3, history_indexed_by_iteration.2.2.1 c5opt 0 h1 h2 h3⟩

/-- **C9**: every snapshot ever recorded has `converged = false`: the
`step()` call that detects convergence returns a converged snapshot but
appends nothing and does not bump the iteration, so even the history
returned by `runToConvergence()` on a converged run has no converged
entry. -/
theorem history_never_converged :
    (∀ (o : GradientDescentOptimizer) (x0 y0 now : ℝ) (ops : List Op),
      ∀ e ∈ (applyOps (o.init x0 y0 now) ops).history, e.converged = false) ∧
    (∀ (o : GradientDescentOptimizer) (now : ℝ),
      o.converged = false → o.iteration < o.config.maxIterations →
      o.stepMagnitude < o.config.tolerance →
      (o.step now).2.converged = true ∧
      (o.step now).1.history = o.history ∧
      (o.step now).1.iteration = o.iteration) ∧
    (∀ (o : GradientDescentOptimizer) (x0 y0 now now₂ : ℝ) (ops : List Op),
      ∀ e ∈ ((applyOps (o.init x0 y0 now) ops).runToConvergence now₂).2,
        e.converged = false) := by
  have hmain : ∀ (o : GradientDescentOptimizer) (x0 y0 now : ℝ) (ops : List Op),
      HistoryConvFalse (applyOps (o.init x0 y0 now) ops) :=
    fun o x0 y0 now ops =>
      applyOps_pres HistoryConvFalse historyConvFalse_step
        (fun hxy h => historyConvFalse_core hxy h) ops _
        (historyConvFalse_init o x0 y0 now)
  refine ⟨fun o x0 y0 now ops => hmain o x0 y0 now ops, ?_, ?_⟩
  · intro o now h1 h2 hm
    have hT : ¬ (o.converged = true ∨ o.config.maxIterations ≤ o.iteration) := by
      rw [not_or]
      exact ⟨by simp [h1], by omega⟩
    rw [GradientDescentOptimizer.step_converges o now hT hm]
    exact ⟨rfl, rfl, rfl⟩
  · intro o x0 y0 now now₂ ops e he
    have hx : HistoryConvFalse
        (applyOp (applyOps (o.init x0 y0 now) ops) (Op.runToConvergenceOp now₂)) :=
      applyOp_pres HistoryConvFalse historyConvFalse_step
        (fun hxy h => historyConvFalse_core hxy h) _ _
        (hmain o x0 y0 now ops)
    exact hx e he

/-- The optimizer at the minimum used for the C9 witness. -/
def c9opt : GradientDescentOptimizer :=
  (GradientDescentOptimizer.create quadraticBowl defaultConfig).init 1 1 0

/-- **C9 witness**: the convergence-detecting step at `(1, 1)` returns a
converged snapshot without appending to the history. -/
theorem history_never_converged_witness :
    c9opt.converged = false ∧
    c9opt.iteration < c9opt.config.maxIterations ∧
    c9opt.stepMagnitude < c9opt.config.tolerance ∧
    ((c9opt.step 0).2.converged = true ∧
     (c9opt.step 0).1.history = c9opt.history ∧
     (c9opt.step 0).1.iteration = c9opt.iteration) := by
  have h1 : c9opt.converged = false := rfl
  have h2 : c9opt.iteration < c9opt.config.maxIterations := by
    show (0 : ℕ) < 1000
    norm_num
  have hm : c9opt.stepMagnitude < c9opt.config.tolerance := by
    show mathUtils.vectorMagnitude (quadraticBowl.gradient (1 : ℝ) (1 : ℝ)) < 1 / 1000000
    unfold mathUtils.vectorMagnitude quadraticBowl
    simp only
    have hz : Real.sqrt (2 * ((1 : ℝ) - 1) * (2 * ((1 : ℝ) - 1)) +
        2 * ((1 : ℝ) - 1) * (2 * ((1 : ℝ) - 1))) = 0 := by
      rw [Real.sqrt_eq_zero']
      norm_num
    rw [hz]
    norm_num
  exact ⟨h1, h2, hm, history_never_converged.2.1 c9opt 0 h1 h2 hm⟩

end GradientDescent

namespace GradientDescent

/-- The C6 scenario configuration: `learningRate = 0.1`,
`maxIterations = 1000`, `tolerance = 1e-6`, `momentum = 0`, no adaptive
rate. -/
def c6config : Config :=
  { learningRate := 1 / 10
    maxIterations := 1000
    tolerance := 1 / 1000000
    momentum := 0
    adaptiveLearningRate := false
    initialDecay := 9 / 10 }

/-- The C6 scenario: quadratic bowl, start `(2, 2)`. -/
def c6opt : GradientDescentOptimizer :=
  (GradientDescentOptimizer.create quadraticBowl c6config).init 2 2 0

/-- The state after `k` bare `step()` calls in the C6 scenario. -/
def c6state (k : ℕ) : GradientDescentOptimizer :=
  stepN c6opt 0 k

/-- Closed form of the C6 trajectory: after `k ≤ 67` steps the position is
`(1 + (4/5)^k, 1 + (4/5)^k)`, not yet converged. -/
lemma c6_char : ∀ k, k ≤ 67 →
    (c6state k).currentPosition = ⟨1 + (4/5 : ℝ)^k, 1 + (4/5 : ℝ)^k⟩ ∧
    (c6state k).iteration = k ∧
    (c6state k).converged = false ∧
    (c6state k).func = quadraticBowl ∧
    (c6state k).config = c6config := by
  intro k
  induction k with
  | zero =>
    intro _
    refine ⟨?_, rfl, rfl, rfl, rfl⟩
    show (⟨2, 2⟩ : Vec2) = ⟨1 + (4/5 : ℝ)^0, 1 + (4/5 : ℝ)^0⟩
    norm_num
  | succ n ih =>
    intro hk
    have hn : n ≤ 66 := by omega
    obtain ⟨hp, hi, hc, hf, hcf⟩ := ih (by omega)
    have hT : ¬ ((c6state n).converged = true ∨
        (c6state n).config.maxIterations ≤ (c6state n).iteration) := by
      rw [not_or, hc, hi, hcf]
      constructor
      · simp
      · show ¬ (1000 ≤ n)
        omega
    have hg : (c6state n).stepGradient = ⟨2 * (4/5 : ℝ)^n, 2 * (4/5 : ℝ)^n⟩ := by
      unfold GradientDescentOptimizer.stepGradient
      rw [hf, hp]
      show (⟨2 * ((1 + (4/5 : ℝ)^n) - 1), 2 * ((1 + (4/5 : ℝ)^n) - 1)⟩ : Grad) = _
      norm_num
    have hg2 : ((4/5 : ℝ)^n) * ((4/5 : ℝ)^n) = ((16 : ℝ)/25)^n := by
      rw [← mul_pow]
      norm_num
    have hm : ¬ (c6state n).stepMagnitude < (c6state n).config.tolerance := by
      rw [not_lt, hcf]
      unfold GradientDescentOptimizer.stepMagnitude
      rw [hg]
      show (1 / 1000000 : ℝ) ≤
        Real.sqrt (2 * (4/5 : ℝ)^n * (2 * (4/5 : ℝ)^n) + 2 * (4/5 : ℝ)^n * (2 * (4/5 : ℝ)^n))
      apply Real.le_sqrt_of_sq_le
      have hE : 2 * (4/5 : ℝ)^n * (2 * (4/5 : ℝ)^n) + 2 * (4/5 : ℝ)^n * (2 * (4/5 : ℝ)^n) =
          8 * ((16 : ℝ)/25)^n := by
        rw [← hg2]
        ring
      rw [hE]
      have hmono : ((16 : ℝ)/25)^66 ≤ ((16 : ℝ)/25)^n :=
        pow_le_pow_of_le_one (by norm_num) (by norm_num) hn
      have hbase : (1 / 1000000 : ℝ)^2 ≤ 8 * ((16 : ℝ)/25)^66 := by norm_num
      nlinarith
    have hmom : ¬ 0 < (c6state n).config.momentum := by
      rw [hcf]
      show ¬ (0 : ℝ) < 0
      simp
    have helr : (c6state n).effectiveLearningRate = 1 / 10 := by
      unfold GradientDescentOptimizer.effectiveLearningRate
      rw [hcf, hi]
      rw [if_neg]
      · rfl
      · rintro ⟨ha, -⟩
        exact absurd ha (by simp [c6config])
    have hstep := GradientDescentOptimizer.step_accepted_vanilla (c6state n) 0 hT hm hmom
    have hsucc : c6state (n + 1) = ((c6state n).step 0).1 := rfl
    refine ⟨?_, ?_, ?_, ?_, ?_⟩
    · rw [hsucc, hstep]
      show (⟨(c6state n).currentPosition.x -
              (c6state n).effectiveLearningRate * (c6state n).stepGradient.dx,
            (c6state n).currentPosition.y -
              (c6state n).effectiveLearningRate * (c6state n).stepGradient.dy⟩ : Vec2) = _
      rw [hp, helr, hg]
      show (⟨(1 + (4/5 : ℝ)^n) - 1/10 * (2 * (4/5 : ℝ)^n),
            (1 + (4/5 : ℝ)^n) - 1/10 * (2 * (4/5 : ℝ)^n)⟩ : Vec2) = _
      rw [pow_succ]
      congr 1 <;> ring
    · rw [hsucc, hstep]
      show (c6state n).iteration + 1 = n + 1
      rw [hi]
    · rw [hsucc, hstep]
      show (c6state n).converged = false
      exact hc
    · rw [hsucc, GradientDescentOptimizer.func_step, hf]
    · rw [hsucc, GradientDescentOptimizer.config_step, hcf]

end GradientDescent

namespace GradientDescent

/-- The function value along the C6 trajectory: `2 * (16/25)^k`. -/
lemma c6_value (k : ℕ) (hk : k ≤ 67) :
    (c6state k).getCurrentState.functionValue = 2 * ((16 : ℝ)/25)^k := by
  obtain ⟨hp, -, -, hf, -⟩ := c6_char k hk
  show (c6state k).func.value (c6state k).currentPosition.x
    (c6state k).currentPosition.y = _
  rw [hf, hp]
  show ((1 + (4/5 : ℝ)^k) - 1)^2 + ((1 + (4/5 : ℝ)^k) - 1)^2 = _
  have hg2 : ((4/5 : ℝ)^k) * ((4/5 : ℝ)^k) = ((16 : ℝ)/25)^k := by
    rw [← mul_pow]
    norm_num
  rw [← hg2]
  ring

set_option maxRecDepth 10000 in
/-- The 68th `step()` call in the C6 scenario detects convergence. -/
lemma c6_detect :
    (c6state 68).converged = true ∧
    (c6state 68).iteration = 67 ∧
    (c6state 68).currentPosition = ⟨1 + (4/5 : ℝ)^67, 1 + (4/5 : ℝ)^67⟩ ∧
    (c6state 68).config = c6config := by
  obtain ⟨hp, hi, hc, hf, hcf⟩ := c6_char 67 (by norm_num)
  have hT : ¬ ((c6state 67).converged = true ∨
      (c6state 67).config.maxIterations ≤ (c6state 67).iteration) := by
    rw [not_or, hc, hi, hcf]
    constructor
    · simp
    · show ¬ (1000 ≤ 67)
      omega
  have hg : (c6state 67).stepGradient = ⟨2 * (4/5 : ℝ)^67, 2 * (4/5 : ℝ)^67⟩ := by
    unfold GradientDescentOptimizer.stepGradient
    rw [hf, hp]
    show (⟨2 * ((1 + (4/5 : ℝ)^67) - 1), 2 * ((1 + (4/5 : ℝ)^67) - 1)⟩ : Grad) = _
    norm_num
  have hm : (c6state 67).stepMagnitude < (c6state 67).config.tolerance := by
    rw [hcf]
    unfold GradientDescentOptimizer.stepMagnitude
    rw [hg]
    show Real.sqrt (2 * (4/5 : ℝ)^67 * (2 * (4/5 : ℝ)^67) +
      2 * (4/5 : ℝ)^67 * (2 * (4/5 : ℝ)^67)) < 1 / 1000000
    rw [Real.sqrt_lt' (by norm_num : (0 : ℝ) < 1 / 1000000)]
    have hg2 : ((4/5 : ℝ)^67) * ((4/5 : ℝ)^67) = ((16 : ℝ)/25)^67 := by
      rw [← mul_pow]
      norm_num
    have hE : 2 * (4/5 : ℝ)^67 * (2 * (4/5 : ℝ)^67) +
        2 * (4/5 : ℝ)^67 * (2 * (4/5 : ℝ)^67) = 8 * ((16 : ℝ)/25)^67 := by
      rw [← hg2]
      ring
    rw [hE]
    norm_num
  have hstep := GradientDescentOptimizer.step_converges (c6state 67) 0 hT hm
  have hsucc : c6state 68 = ((c6state 67).step 0).1 := rfl
  refine ⟨?_, ?_, ?_, ?_⟩
  · rw [hsucc, hstep]
  · rw [hsucc, hstep]
    show (c6state 67).iteration = 67
    exact hi
  · rw [hsucc, hstep]
    show (c6state 67).currentPosition = _
    exact hp
  · rw [hsucc, hstep]
    show (c6state 67).config = _
    exact hcf

/-- **C6**: on the quadratic bowl from `(2, 2)` with learning rate `0.1`,
tolerance `1e-6`, `maxIterations = 1000` and no momentum, the optimizer
follows the closed-form trajectory `(1 + (4/5)^k, 1 + (4/5)^k)`, its
function value `2 * (16/25)^k` strictly decreases at every accepted step,
its distance to the minimum `(1, 1)` strictly shrinks, and the 68th call
sets `converged = true` at iteration 67 — well under the 1000-iteration
budget. -/
theorem quadratic_bowl_converges :
    (∀ k, k ≤ 67 →
      (c6state k).currentPosition = ⟨1 + (4/5 : ℝ)^k, 1 + (4/5 : ℝ)^k⟩ ∧
      (c6state k).converged = false ∧
      (c6state k).iteration = k) ∧
    (∀ k, k ≤ 67 →
      (c6state k).getCurrentState.functionValue = 2 * ((16 : ℝ)/25)^k) ∧
    (∀ k, k < 67 →
      (c6state (k + 1)).getCurrentState.functionValue <
        (c6state k).getCurrentState.functionValue) ∧
    (∀ k, k < 67 →
      |(c6state (k + 1)).currentPosition.x - 1| < |(c6state k).currentPosition.x - 1| ∧
      |(c6state (k + 1)).currentPosition.y - 1| < |(c6state k).currentPosition.y - 1|) ∧
    ((c6state 68).converged = true ∧
     (c6state 68).iteration = 67 ∧
     (c6state 68).iteration < (c6state 68).config.maxIterations) := by
  have hdec : ∀ k : ℕ, ((16 : ℝ)/25)^(k + 1) < ((16 : ℝ)/25)^k :=
    fun k => pow_lt_pow_right_of_lt_one₀ (by norm_num) (by norm_num) (by omega)
  have hdec45 : ∀ k : ℕ, ((4 : ℝ)/5)^(k + 1) < ((4 : ℝ)/5)^k :=
    fun k => pow_lt_pow_right_of_lt_one₀ (by norm_num) (by norm_num) (by omega)
  refine ⟨?_, c6_value, ?_, ?_, ?_, ?_, ?_⟩
  · intro k hk
    obtain ⟨hp, -, hc, -, -⟩ := c6_char k hk
    exact ⟨hp, hc, (c6_char k hk).2.1⟩
  · intro k hk
    rw [c6_value k (by omega), c6_value (k + 1) (by omega)]
    have := hdec k
    linarith
  · intro k hk
    obtain ⟨hp, -, -⟩ := c6_char k (by omega)
    obtain ⟨hp', -, -⟩ := c6_char (k + 1) (by omega)
    rw [hp, hp']
    have habs : ∀ m : ℕ, |(1 + (4/5 : ℝ)^m) - 1| = (4/5 : ℝ)^m := by
      intro m
      rw [show (1 + (4/5 : ℝ)^m) - 1 = (4/5 : ℝ)^m by ring]
      exact abs_of_pos (pow_pos (by norm_num) m)
    constructor
    · show |(1 + (4/5 : ℝ)^(k+1)) - 1| < |(1 + (4/5 : ℝ)^k) - 1|
      rw [habs, habs]
      exact hdec45 k
    · show |(1 + (4/5 : ℝ)^(k+1)) - 1| < |(1 + (4/5 : ℝ)^k) - 1|
      rw [habs, habs]
      exact hdec45 k
  · exact c6_detect.1
  · exact c6_detect.2.1
  · rw [c6_detect.2.1, c6_detect.2.2.2]
    show (67 : ℕ) < 1000
    omega

/-- **C6 witness**: the trajectory facts evaluated at concrete indices. -/
theorem quadratic_bowl_converges_witness :
    (3 : ℕ) ≤ 67 ∧
    (c6state 3).currentPosition = ⟨1 + (4/5 : ℝ)^3, 1 + (4/5 : ℝ)^3⟩ ∧
    (2 : ℕ) < 67 ∧
    (c6state 3).getCurrentState.functionValue <
      (c6state 2).getCurrentState.functionValue :=
  ⟨by norm_num, (quadratic_bowl_converges.1 3 (by norm_num)).1, by norm_num,
   quadratic_bowl_converges.2.2.1 2 (by norm_num)⟩

end GradientDescent

namespace GradientDescent

/-- With enough fuel, the `runToConvergence` loop exits only because its
guard became false (converged or exhausted), never by fuel exhaustion: the
fuel `maxIterations + 1 - iteration` used in `runToConvergence` always
satisfies the hypothesis, so the fuel-based loop equals the source's
`while`. -/
lemma runToConvergenceLoop_post (now : ℝ) :
    ∀ (fuel : ℕ) (o : GradientDescentOptimizer),
      (o.converged = true ∨ o.config.maxIterations ≤ o.iteration ∨
        o.config.maxIterations - o.iteration < fuel) →
      (GradientDescentOptimizer.runToConvergenceLoop now fuel o).converged = true ∨
      (GradientDescentOptimizer.runToConvergenceLoop now fuel o).config.maxIterations ≤
        (GradientDescentOptimizer.runToConvergenceLoop now fuel o).iteration := by
  intro fuel
  induction fuel with
  | zero =>
    intro o h
    rcases h with h | h | h
    · exact Or.inl h
    · exact Or.inr h
    · omega
  | succ m ih =>
    intro o h
    rw [runToConvergenceLoop_succ]
    split_ifs with hg
    · have hT : ¬ (o.converged = true ∨ o.config.maxIterations ≤ o.iteration) := by
        rw [not_or]
        exact ⟨by simp [hg.1], by omega⟩
      have hfuel : o.config.maxIterations - o.iteration < m + 1 := by
        rcases h with h | h | h
        · rw [hg.1] at h
          exact absurd h (by simp)
        · omega
        · exact h
      apply ih
      by_cases hm : o.stepMagnitude < o.config.tolerance
      · rw [GradientDescentOptimizer.step_converges o now hT hm]
        exact Or.inl rfl
      · have hlt : o.iteration < o.config.maxIterations := hg.2
        by_cases hmom : 0 < o.config.momentum
        · rw [GradientDescentOptimizer.step_accepted_momentum o now hT hm hmom]
          right
          right
          show o.config.maxIterations - (o.iteration + 1) < m
          omega
        · rw [GradientDescentOptimizer.step_accepted_vanilla o now hT hm hmom]
          right
          right
          show o.config.maxIterations - (o.iteration + 1) < m
          omega
    · rw [not_and_or] at hg
      rcases hg with hg | hg
      · left
        exact Bool.not_eq_false _ ▸ hg
      · right
        omega

/-- The state returned by `runToConvergence` is converged or exhausted: the
loop always terminates through its guard with the chosen fuel. -/
lemma runToConvergence_post (o : GradientDescentOptimizer) (now : ℝ) :
    (o.runToConvergence now).1.converged = true ∨
    (o.runToConvergence now).1.config.maxIterations ≤
      (o.runToConvergence now).1.iteration := by
  unfold GradientDescentOptimizer.runToConvergence
  simp only
  have hcore := sameCore_setEndTime
    (GradientDescentOptimizer.runToConvergenceLoop now
      ((if o.isRunning = true then o
        else { o with isRunning := true, startTime := some now }).config.maxIterations + 1 -
       (if o.isRunning = true then o
        else { o with isRunning := true, startTime := some now }).iteration)
      (if o.isRunning = true then o
       else { o with isRunning := true, startTime := some now }))
  have hpost := runToConvergenceLoop_post now
    ((if o.isRunning = true then o
      else { o with isRunning := true, startTime := some now }).config.maxIterations + 1 -
     (if o.isRunning = true then o
      else { o with isRunning := true, startTime := some now }).iteration)
    (if o.isRunning = true then o
     else { o with isRunning := true, startTime := some now })
    (by omega)
  rcases hpost with h | h
  · left
    rw [(hcore _ _).2.2.2.2.2.1]
    exact h
  · right
    rw [(hcore _ _).2.1, (hcore _ _).2.2.2.2.1]
    exact h

end GradientDescent
